import Mathlib

/-!
Shallow embedding of `src/index.ts` of mchao123/use-charts.

The repository is a Vue 3 composable that manages ECharts instances:
`useCharts` creates one scope (a ResizeObserver, a list of AbortControllers,
a list of watch-stop handles, an `onUnmounted` hook), and `createChart`
creates one factory (a mutable `charts` array of `{el, chart}` bindings, a
`removeInvalidChart` purge, a `setOption` broadcast, an `initEl` attach
callback deferred via `nextTick`, and an `onInit` registration list).
`createChartEl` wires two deep watchers (payload, direct options) onto the
factory.

We model one scope holding one factory wired as by `createChartEl`, as a
single-threaded event loop: DOM attach/detach of elements, the `initEl` ref
callback, the settling of one pending `nextTick` callback, one watcher flush
cycle, a ResizeObserver notification batch for one element, and the
`onUnmounted` teardown.  Elements, engine instances and option values are
identified by natural numbers; the engine (echarts) is observed through a
trace of calls.

JavaScript aliasing that matters is modelled explicitly: in the source,
`removeInvalidChart` REASSIGNS the local `charts` variable
(`charts = charts.filter(...)`, line 70), while `createChartEl` destructures
`const { el, charts, setOption, onInit } = createChart(code[0])` (line 128),
capturing the array object that `charts` held at return time.  The state
therefore carries both the factory's current list (`charts`) and the
captured array (`captured`), together with an `aliased` flag recording
whether they are still the same array object (pushes are visible through
both exactly while aliased; any filter un-aliases them).
-/

/-- Element identifiers (HTMLElement objects are identified by a number). -/
abbrev El := Nat

/-- Engine instance identifiers (`EChartsType` handles from `init`). -/
abbrev ChartId := Nat

/-- Opaque option values (`EChartsOption`); deep equality is equality. -/
abbrev OptVal := Nat

/-- Opaque payload values fed to a template's transform function. -/
abbrev Payload := Nat

/-- One entry of the factory's `charts` array: `{ el, chart }` (line 67). -/
structure Binding where
  el : El
  chart : ChartId
deriving DecidableEq, Repr

/-- Observable calls made by the composable: engine calls (`init`,
`chart.setOption`, `chart.resize`) plus the two non-engine observables the
spec mentions (ResizeObserver registration and init-callback invocation). -/
inductive Event where
  | create (el : El) (chart : ChartId)
  | observe (el : El)
  | applyOptions (chart : ChartId) (opt : OptVal)
  | resize (chart : ChartId)
  | initCb (fn : Nat) (chart : ChartId) (el : El)
deriving DecidableEq, Repr

/-- Calls into the rendering engine (echarts): instance creation, option
application and resize.  ResizeObserver registration and user init-callback
invocation are not engine calls. -/
def Event.isEngineCall : Event → Bool
  | .create _ _ => true
  | .applyOptions _ _ => true
  | .resize _ => true
  | _ => false

/-- The engine calls in a trace that touch a given instance. -/
def engineCallsFor (c : ChartId) (tr : List Event) : List Event :=
  tr.filter fun ev =>
    match ev with
    | .create _ c' => c' == c
    | .applyOptions c' _ => c' == c
    | .resize c' => c' == c
    | _ => false

/-- The instance-creation calls in a trace made from a given element. -/
def createCallsFor (e : El) (tr : List Event) : List Event :=
  tr.filter fun ev =>
    match ev with
    | .create e' _ => e' == e
    | _ => false

/-- The option values applied to a given instance, in order. -/
def optEventsFor (c : ChartId) (tr : List Event) : List OptVal :=
  tr.filterMap fun ev =>
    match ev with
    | .applyOptions c' v => if c' == c then some v else none
    | _ => none

/-- One step of the last-applied-option fold: an option application to the
tracked instance overwrites the accumulator. -/
def lastOptStep (c : ChartId) (acc : Option OptVal) (ev : Event) : Option OptVal :=
  match ev with
  | .applyOptions c' v => if c' == c then some v else acc
  | _ => acc

/-- The last option value applied to a given instance in a trace. -/
def lastOptFor (c : ChartId) (tr : List Event) : Option OptVal :=
  tr.foldl (lastOptStep c) none

/-- State of one `useCharts` scope holding one `createChart` factory wired
as by `createChartEl`.  `attached` is the set of elements currently having a
parent in the document tree (`el.parentElement` truthy); `pending` is the
FIFO queue of elements whose `initEl` body was deferred via `nextTick`;
`observed` is the ResizeObserver's observation list; `resizeMap` records the
`el.__resize` assignments (head entry is the most recent); `initList` holds
the identifiers of registered init callbacks; `unmounted` records that the
`onUnmounted` hook (which stops both watchers and disconnects the observer)
has run; `trace` is the list of observable calls made so far. -/
structure St where
  attached : List El
  charts : List Binding
  captured : List Binding
  aliased : Bool
  pending : List El
  nextChart : ChartId
  observed : List El
  resizeMap : List (El × ChartId)
  initList : List Nat
  unmounted : Bool
  trace : List Event
deriving DecidableEq, Repr

/-- The scope right after `useCharts` + `createChart` + `createChartEl` run:
no elements, empty (and still aliased) chart arrays, nothing pending. -/
def init0 : St :=
  { attached := [], charts := [], captured := [], aliased := true,
    pending := [], nextChart := 0, observed := [], resizeMap := [],
    initList := [], unmounted := false, trace := [] }

/-- `removeInvalidChart` (lines 69-71): `charts = charts.filter(({el}) =>
el.parentElement)`.  `Array.prototype.filter` returns a fresh array, so the
local variable no longer aliases the captured array afterwards. -/
def purge (s : St) : St :=
  { s with charts := s.charts.filter fun b => s.attached.contains b.el,
           aliased := false }

/-- `setOption` of the factory (lines 72-77): purge stale bindings, then
call `chart.setOption(opts)` on every remaining binding, in list order. -/
def setOpt (o : OptVal) (s : St) : St :=
  let s' := purge s
  { s' with trace := s'.trace ++ s'.charts.map fun b => Event.applyOptions b.chart o }

/-- The synchronous part of `initEl` (lines 102-104): a null element or an
element already present in `charts` is a no-op; otherwise the body is
scheduled via `nextTick` (modelled as enqueueing the element). -/
def attachCb (e : Option El) (s : St) : St :=
  match e with
  | none => s
  | some e =>
      if s.charts.any (fun b => b.el == e) then s
      else { s with pending := s.pending ++ [e] }

/-- Settling of the oldest pending `nextTick` callback (lines 104-115):
`removeInvalidChart()`; `const chart = init(el)`;
`resizeObserver.observe(el)`; `el.__resize = () => chart.resize()`;
`charts.push({el, chart})`; `opts && chart.setOption(opts)` (the baseline
`opts` is an `EChartsOption` object, hence truthy); then every registered
init callback runs with `(chart, el)`.  The push lands in the current
`charts` array, which the purge just un-aliased from the captured one. -/
def settle (B : OptVal) (s : St) : St :=
  match s.pending with
  | [] => s
  | e :: rest =>
      let s1 := purge { s with pending := rest }
      let c := s1.nextChart
      { s1 with
          nextChart := c + 1,
          observed := s1.observed ++ [e],
          resizeMap := (e, c) :: s1.resizeMap,
          charts := s1.charts ++ [⟨e, c⟩],
          captured := if s1.aliased then s1.captured ++ [⟨e, c⟩] else s1.captured,
          trace := s1.trace
            ++ [Event.create e c, Event.observe e, Event.applyOptions c B]
            ++ s1.initList.map fun fn => Event.initCb fn c e }

/-- One watcher flush cycle of the `createChartEl` wiring (lines 133-138).
Vue runs watcher jobs in registration order, and the payload watcher is
registered before the options watcher, so when both sources changed in the
same cycle the transform-derived options go through `setOption` first and
the directly-supplied options second.  Both watchers are stop handles held
in `Watchs` and stopped at unmount, after which neither callback runs.  The
payload callback computes `code[1](toValue(data), charts)` where `charts` is
the DESTRUCTURED array, i.e. the captured snapshot. -/
def flushCycle (F : Payload → List Binding → OptVal)
    (pc : Option Payload) (oc : Option OptVal) (s : St) : St :=
  let s1 :=
    match pc with
    | none => s
    | some p => if s.unmounted then s else setOpt (F p s.captured) s
  match oc with
  | none => s1
  | some o => if s1.unmounted then s1 else setOpt o s1

/-- Delivery of a ResizeObserver notification for one element (lines 46-51):
the callback fires only for elements on the observation list and invokes
`entry.target.__resize()`, i.e. `chart.resize()` for the most recently
assigned chart of that element. -/
def resizeNotify (e : El) (s : St) : St :=
  if s.observed.contains e then
    match s.resizeMap.lookup e with
    | some c => { s with trace := s.trace ++ [Event.resize c] }
    | none => s
  else s

/-- The `onUnmounted` hook (lines 55-63): abort all controllers (no
observable effect — the commented-out resize listener was the only consumer
of the signals), stop both watchers, and `resizeObserver.disconnect()`,
which empties the observation list.  Vue runs the hook at most once per
scope. -/
def unmountScope (s : St) : St :=
  if s.unmounted then s
  else { s with unmounted := true, observed := [] }

/-- The events the scope can experience, single-threaded. -/
inductive Act where
  | domAttach (e : El)
  | domDetach (e : El)
  | attach (e : Option El)
  | settle
  | flush (pc : Option Payload) (oc : Option OptVal)
  | resizeNotify (e : El)
  | unmount
deriving DecidableEq, Repr

/-- One step of the scope's event loop, parametrised by the template's
baseline options `B` and transform `F`. -/
def step (B : OptVal) (F : Payload → List Binding → OptVal) : Act → St → St
  | .domAttach e, s =>
      { s with attached := if s.attached.contains e then s.attached else e :: s.attached }
  | .domDetach e, s => { s with attached := s.attached.filter (fun x => x != e) }
  | .attach e, s => attachCb e s
  | .settle, s => settle B s
  | .flush pc oc, s => flushCycle F pc oc s
  | .resizeNotify e, s => resizeNotify e s
  | .unmount, s => unmountScope s

/-- Run a sequence of events. -/
def runActs (B : OptVal) (F : Payload → List Binding → OptVal)
    (acts : List Act) (s : St) : St :=
  acts.foldl (fun s a => step B F a s) s

/-! ### Claim C1: idempotence of the attach callback -/

/-- A fixed transform used in concrete scenarios: the number of bindings the
transform is given (distinguishes the captured snapshot from the live list). -/
def lenF : Payload → List Binding → OptVal := fun _ l => l.length

/-- C1 counterexample.  The duplicate guard of `initEl` (line 103) checks
only the `charts` array, but a binding is pushed only when the deferred
`nextTick` body runs.  So in the interleaving attach(5); attach(5);
settle; settle — both attach calls before the first settling — both calls
pass the guard: the factory ends with TWO bindings for element 5 and TWO
engine instance-creation calls for it, refuting the claim that any
interleaving with the deferred render-settling step yields exactly one of
each. -/
theorem C1_counterexample :
    ((runActs 7 lenF
        [.domAttach 5, .attach (some 5), .attach (some 5), .settle, .settle]
        init0).charts.filter (fun b => b.el == 5)).length = 2 ∧
    (createCallsFor 5
      (runActs 7 lenF
        [.domAttach 5, .attach (some 5), .attach (some 5), .settle, .settle]
        init0).trace).length = 2 := by
  decide

/-- C1 (amended): attaching the same element twice produces exactly one
binding and one instance-creation call PROVIDED the deferred step of the
first attach has settled before the second attach call (the guard then sees
the binding and no-ops); two attaches of the same element that both precede
the first settling each create a binding and an instance.  Proved for the
settled interleaving, for every element, baseline and transform. -/
theorem C1_amended (B : OptVal) (F : Payload → List Binding → OptVal) (e : El) :
    ((runActs B F [.domAttach e, .attach (some e), .settle, .attach (some e), .settle]
        init0).charts.filter (fun b => b.el == e)) = [⟨e, 0⟩] ∧
    (createCallsFor e
      (runActs B F [.domAttach e, .attach (some e), .settle, .attach (some e), .settle]
        init0).trace).length = 1 := by
  simp [runActs, step, attachCb, settle, purge, init0, createCallsFor]

/-! ### Claim C2: uniqueness of elements and binding-count bound -/

/-- The binding-list invariant: the elements of the bindings together with
the pending deferred attaches are pairwise distinct, and the attached-set
has no duplicates. -/
def InvC2 (s : St) : Prop :=
  ((s.charts.map Binding.el) ++ s.pending).Nodup ∧ s.attached.Nodup

/-- C2 counterexample.  Starting from the empty scope with element 5
attached, the interleaving attach(5); attach(5); settle; settle ends a
binding-list operation (the second settling) with TWO bindings sharing
element 5, and with a live-binding count of 2 although only one element is
attached — refuting both conjuncts of the claim. -/
theorem C2_counterexample :
    ((runActs 7 lenF
        [.domAttach 5, .attach (some 5), .attach (some 5), .settle, .settle]
        init0).charts.map Binding.el) = [5, 5] ∧
    (runActs 7 lenF
        [.domAttach 5, .attach (some 5), .attach (some 5), .settle, .settle]
        init0).charts.length = 2 ∧
    (runActs 7 lenF
        [.domAttach 5, .attach (some 5), .attach (some 5), .settle, .settle]
        init0).attached.length = 1 := by
  decide

/-- `removeInvalidChart` keeps the invariant: it only filters the binding
list and leaves the pending queue and the attached set unchanged. -/
lemma invC2_purge (s : St) (h : InvC2 s) : InvC2 (purge s) := by
  obtain ⟨h1, h2⟩ := h
  refine ⟨?_, h2⟩
  have hm : List.Sublist ((purge s).charts.map Binding.el) (s.charts.map Binding.el) :=
    (List.filter_sublist _).map _
  have hsub : List.Sublist (((purge s).charts.map Binding.el) ++ (purge s).pending)
      ((s.charts.map Binding.el) ++ s.pending) :=
    List.Sublist.append hm (by simp [purge])
  exact List.Nodup.sublist hsub h1

/-- The factory's `setOption` keeps the invariant (it purges, then only
records engine calls). -/
lemma invC2_setOpt (o : OptVal) (s : St) (h : InvC2 s) : InvC2 (setOpt o s) := by
  have := invC2_purge s h
  simpa [setOpt, InvC2, purge] using this

/-- The attach callback keeps the invariant, provided the element is not
already pending: a null element is a no-op, an element with a binding is
caught by the guard, and a fresh element is appended to the queue. -/
lemma invC2_attach (x : El) (s : St) (h : InvC2 s) (hp : x ∉ s.pending) :
    InvC2 (attachCb (some x) s) := by
  obtain ⟨h1, h2⟩ := h
  unfold attachCb
  by_cases hx : s.charts.any (fun b => b.el == x) = true
  · simp only [hx, if_true]; exact ⟨h1, h2⟩
  · simp only [hx, if_false, Bool.false_eq_true]
    refine ⟨?_, h2⟩
    have hxc : x ∉ s.charts.map Binding.el := by
      intro hmem
      rcases List.mem_map.mp hmem with ⟨b, hb, hbe⟩
      exact hx (List.any_eq_true.mpr ⟨b, hb, by simp [hbe]⟩)
    have hxm : x ∉ (s.charts.map Binding.el ++ s.pending) := by
      simp only [List.mem_append]
      rintro (h' | h')
      · exact hxc h'
      · exact hp h'
    rw [← List.append_assoc]
    refine List.Nodup.append h1 (List.nodup_singleton x) ?_
    intro a ha hb
    simp only [List.mem_singleton] at hb
    subst hb
    exact hxm ha

/-- Settling a deferred attach keeps the invariant: the settled element
leaves the pending queue (where it was unique) and enters the binding list,
whose surviving elements it cannot equal. -/
lemma invC2_settle (B : OptVal) (s : St) (h : InvC2 s) : InvC2 (settle B s) := by
  obtain ⟨h1, h2⟩ := h
  unfold settle
  cases hp : s.pending with
  | nil => exact ⟨h1, h2⟩
  | cons e rest =>
    rw [hp] at h1
    refine ⟨?_, h2⟩
    show (List.map Binding.el
        ((s.charts.filter fun b => s.attached.contains b.el) ++ [Binding.mk e s.nextChart])
        ++ rest).Nodup
    rw [List.map_append]
    simp only [List.map_cons, List.map_nil]
    rw [List.nodup_append] at h1
    obtain ⟨hA, hER, hD⟩ := h1
    have hrest : rest.Nodup := (List.nodup_cons.mp hER).2
    have heR : e ∉ rest := (List.nodup_cons.mp hER).1
    have hsubl : List.Sublist
        ((s.charts.filter fun b => s.attached.contains b.el).map Binding.el)
        (s.charts.map Binding.el) := (List.filter_sublist _).map _
    have hPN : ((s.charts.filter fun b => s.attached.contains b.el).map Binding.el).Nodup :=
      List.Nodup.sublist hsubl hA
    have hPsub : ∀ a, a ∈ ((s.charts.filter fun b => s.attached.contains b.el).map Binding.el) →
        a ∈ s.charts.map Binding.el := fun a ha => hsubl.subset ha
    have heP : e ∉ ((s.charts.filter fun b => s.attached.contains b.el).map Binding.el) := by
      intro hmem
      exact hD (hPsub e hmem) (List.mem_cons_self e rest)
    rw [List.nodup_append]
    refine ⟨?_, hrest, ?_⟩
    · rw [List.nodup_append]
      refine ⟨hPN, List.nodup_singleton e, ?_⟩
      intro a ha hb
      simp only [List.mem_singleton] at hb
      subst hb
      exact heP ha
    · intro a ha hb
      rw [List.mem_append] at ha
      rcases ha with ha | ha
      · exact hD (hPsub a ha) (List.mem_cons_of_mem e hb)
      · simp only [List.mem_singleton] at ha
        subst ha
        exact heR hb

/-- A guarded `setOption` application keeps the invariant. -/
lemma invC2_ite (c : Bool) (o : OptVal) (s : St) (h : InvC2 s) :
    InvC2 (if c then s else setOpt o s) := by
  cases c
  · simpa using invC2_setOpt o s h
  · simpa using h

/-- A watcher flush cycle keeps the invariant: it is a composition of
guarded `setOption` applications. -/
lemma invC2_flush (F : Payload → List Binding → OptVal) (pc : Option Payload)
    (oc : Option OptVal) (s : St) (h : InvC2 s) : InvC2 (flushCycle F pc oc s) := by
  unfold flushCycle
  cases pc with
  | none =>
    cases oc with
    | none => exact h
    | some o => exact invC2_ite s.unmounted o s h
  | some p =>
    cases oc with
    | none => exact invC2_ite s.unmounted (F p s.captured) s h
    | some o =>
      exact invC2_ite _ o _ (invC2_ite s.unmounted (F p s.captured) s h)

/-- C2 (amended): the claim holds once attaches of an already-pending
element are excluded (the counterexample shows they break it).  Every event
whose attach target is not already pending preserves `InvC2` — in
particular the binding list never holds two bindings for the same element —
and whenever the binding-list operation `setOption` completes on an
`InvC2` state, the surviving binding elements are pairwise distinct and the
live-binding count is at most the number of currently-attached elements. -/
theorem C2_amended (B : OptVal) (F : Payload → List Binding → OptVal) (a : Act) (s : St)
    (h : InvC2 s)
    (hp : ∀ e, a = Act.attach (some e) → e ∉ s.pending) :
    InvC2 (step B F a s) ∧
    ∀ o : OptVal,
      ((setOpt o s).charts.map Binding.el).Nodup ∧
      (setOpt o s).charts.length ≤ s.attached.length := by
  constructor
  · cases a with
    | domAttach e =>
      obtain ⟨h1, h2⟩ := h
      refine ⟨h1, ?_⟩
      show (if s.attached.contains e then s.attached else e :: s.attached).Nodup
      cases hc : s.attached.contains e with
      | true => simpa using h2
      | false =>
        simp only [Bool.false_eq_true, if_false]
        refine List.nodup_cons.mpr ⟨?_, h2⟩
        intro hm
        have : s.attached.contains e = true := List.elem_iff.mpr hm
        rw [this] at hc
        cases hc
    | domDetach e =>
      exact ⟨h.1, List.Nodup.sublist (List.filter_sublist _) h.2⟩
    | attach e =>
      cases e with
      | none => exact h
      | some x => exact invC2_attach x s h (hp x rfl)
    | settle => exact invC2_settle B s h
    | flush pc oc => exact invC2_flush F pc oc s h
    | resizeNotify e =>
      show InvC2 (resizeNotify e s)
      unfold resizeNotify
      cases hc : s.observed.contains e with
      | false => simpa using h
      | true =>
        simp only [if_true]
        cases hl : s.resizeMap.lookup e with
        | none => exact h
        | some c => exact ⟨h.1, h.2⟩
    | unmount =>
      show InvC2 (unmountScope s)
      unfold unmountScope
      cases hu : s.unmounted with
      | true => simpa using h
      | false =>
        simp only [Bool.false_eq_true, if_false]
        exact ⟨h.1, h.2⟩
  · intro o
    obtain ⟨h1, h2⟩ := h
    have hA : (s.charts.map Binding.el).Nodup := (List.nodup_append.mp h1).1
    have hsubl : List.Sublist
        ((s.charts.filter fun b => s.attached.contains b.el).map Binding.el)
        (s.charts.map Binding.el) := (List.filter_sublist _).map _
    have hN : ((s.charts.filter fun b => s.attached.contains b.el).map Binding.el).Nodup :=
      List.Nodup.sublist hsubl hA
    constructor
    · exact hN
    · have hsubset : ((s.charts.filter fun b => s.attached.contains b.el).map Binding.el)
          ⊆ s.attached := by
        intro x hx
        rcases List.mem_map.mp hx with ⟨b, hb, hbe⟩
        have hc := (List.mem_filter.mp hb).2
        subst hbe
        exact List.elem_iff.mp hc
      have hsp := List.Nodup.subperm hN hsubset
      have hle := hsp.length_le
      rw [List.length_map] at hle
      exact hle

/-- A concrete mid-run scope state — exactly the state reached by
attaching element 1 (with elements 1 and 2 in the tree) and settling. -/
def c2ws : St :=
  { attached := [2, 1], charts := [⟨1, 0⟩], captured := [], aliased := false,
    pending := [], nextChart := 1, observed := [1], resizeMap := [(1, 0)],
    initList := [], unmounted := false,
    trace := [Event.create 1 0, Event.observe 1, Event.applyOptions 0 7] }

/-- Witness for `C2_amended` at a concrete state and event. -/
theorem C2_witness :
    InvC2 (step 7 lenF (Act.attach (some 2)) c2ws) ∧
    ((setOpt 9 c2ws).charts.map Binding.el).Nodup ∧
    (setOpt 9 c2ws).charts.length ≤ c2ws.attached.length :=
  ⟨(C2_amended 7 lenF (Act.attach (some 2)) c2ws ⟨by decide, by decide⟩
      (fun e _ => List.not_mem_nil e)).1,
   ((C2_amended 7 lenF (Act.attach (some 2)) c2ws ⟨by decide, by decide⟩
      (fun e _ => List.not_mem_nil e)).2 9).1,
   ((C2_amended 7 lenF (Act.attach (some 2)) c2ws ⟨by decide, by decide⟩
      (fun e _ => List.not_mem_nil e)).2 9).2⟩

/-! ### Claim C3: teardown stops engine calls -/

/-- Whether an event is an invocation of the attach callback. -/
def isAttachAct : Act → Bool
  | .attach _ => true
  | _ => false

/-- C3 counterexample.  A deferred attach scheduled before teardown and
settling afterwards does NOT check liveness: it creates an engine instance,
applies the baseline options, and calls `resizeObserver.observe` on the
just-disconnected observer, re-arming it.  A subsequent resize notification
then produces an engine `resize` call — after scope teardown.  Concretely:
attach(5); unmount; settle; resize-notify(5) yields the post-teardown engine
calls `init`, `setOption` and `resize`, refuting both the no-engine-call
part and the harmless-no-op part of the claim. -/
theorem C3_counterexample :
    (runActs 7 lenF [.domAttach 5, .attach (some 5), .unmount] init0).unmounted = true ∧
    (runActs 7 lenF [.domAttach 5, .attach (some 5), .unmount] init0).trace = [] ∧
    ((runActs 7 lenF [.settle, .resizeNotify 5]
        (runActs 7 lenF [.domAttach 5, .attach (some 5), .unmount] init0)).trace.filter
      Event.isEngineCall)
      = [Event.create 5 0, Event.applyOptions 0 7, Event.resize 0] := by
  decide

/-- C3 (amended): teardown does stop all notification-driven engine calls
PROVIDED no deferred attach is pending at teardown and none is requested
afterwards: from any torn-down state with an empty pending queue (the
observer's list is empty after `disconnect`), any sequence of events that
contains no attach-callback invocation — resize notifications, payload and
options flushes, DOM changes, settles, repeated unmounts — leaves the call
trace unchanged.  A deferred attach pending at teardown, by contrast,
settles afterwards and re-arms the resize observer (see the
counterexample). -/
theorem C3_amended (B : OptVal) (F : Payload → List Binding → OptVal)
    (acts : List Act) (s : St)
    (hu : s.unmounted = true) (hp : s.pending = []) (ho : s.observed = [])
    (ha : ∀ a ∈ acts, isAttachAct a = false) :
    (runActs B F acts s).trace = s.trace := by
  induction acts generalizing s with
  | nil => rfl
  | cons a rest ih =>
    have hstep : (step B F a s).trace = s.trace ∧ (step B F a s).unmounted = true ∧
        (step B F a s).pending = [] ∧ (step B F a s).observed = [] := by
      cases a with
      | domAttach e => exact ⟨rfl, hu, hp, ho⟩
      | domDetach e => exact ⟨rfl, hu, hp, ho⟩
      | attach e => exact absurd (ha _ (List.mem_cons_self _ _)) (by simp [isAttachAct])
      | settle =>
        have hs : settle B s = s := by
          unfold settle
          rw [hp]
        rw [show step B F Act.settle s = settle B s from rfl, hs]
        exact ⟨rfl, hu, hp, ho⟩
      | flush pc oc =>
        have hs : flushCycle F pc oc s = s := by
          unfold flushCycle
          cases pc <;> cases oc <;> simp [hu]
        rw [show step B F (Act.flush pc oc) s = flushCycle F pc oc s from rfl, hs]
        exact ⟨rfl, hu, hp, ho⟩
      | resizeNotify e =>
        have hs : resizeNotify e s = s := by
          unfold resizeNotify
          rw [ho]
          simp
        rw [show step B F (Act.resizeNotify e) s = resizeNotify e s from rfl, hs]
        exact ⟨rfl, hu, hp, ho⟩
      | unmount =>
        have hs : unmountScope s = s := by
          unfold unmountScope
          rw [hu]
          simp
        rw [show step B F Act.unmount s = unmountScope s from rfl, hs]
        exact ⟨rfl, hu, hp, ho⟩
    obtain ⟨ht, hu', hp', ho'⟩ := hstep
    have hrest : ∀ x ∈ rest, isAttachAct x = false :=
      fun x hmem => ha x (List.mem_cons_of_mem _ hmem)
    calc (runActs B F (a :: rest) s).trace
        = (runActs B F rest (step B F a s)).trace := rfl
      _ = (step B F a s).trace := ih (step B F a s) hu' hp' ho' hrest
      _ = s.trace := ht

/-- The scope of `c2ws` right after its teardown: watchers stopped and the
observation list cleared, nothing pending. -/
def c3ws : St :=
  { attached := [2, 1], charts := [⟨1, 0⟩], captured := [], aliased := false,
    pending := [], nextChart := 1, observed := [], resizeMap := [(1, 0)],
    initList := [], unmounted := true,
    trace := [Event.create 1 0, Event.observe 1, Event.applyOptions 0 7] }

/-- Witness for `C3_amended`: after teardown, a payload-and-options flush, a
resize notification, DOM changes, a settle and a second unmount add nothing
to the trace. -/
theorem C3_witness :
    (runActs 7 lenF
      [.flush (some 1) (some 2), .resizeNotify 1, .domDetach 1, .settle, .unmount]
      c3ws).trace = c3ws.trace :=
  C3_amended 7 lenF
    [.flush (some 1) (some 2), .resizeNotify 1, .domDetach 1, .settle, .unmount]
    c3ws rfl rfl rfl (by decide)

/-! ### Claim C4: transform-derived options precede directly-supplied options -/

lemma setOpt_unmounted (o : OptVal) (s : St) : (setOpt o s).unmounted = s.unmounted := rfl

lemma setOpt_charts (o : OptVal) (s : St) :
    (setOpt o s).charts = s.charts.filter (fun b => s.attached.contains b.el) := rfl

lemma setOpt_attached (o : OptVal) (s : St) : (setOpt o s).attached = s.attached := rfl

lemma setOpt_trace (o : OptVal) (s : St) :
    (setOpt o s).trace = s.trace
      ++ (s.charts.filter fun b => s.attached.contains b.el).map
          (fun b => Event.applyOptions b.chart o) := rfl

/-- In a live scope, a flush cycle where both the payload and the options
source changed is the transform-derived `setOption` followed by the
directly-supplied `setOption` — the payload watcher was registered first
(line 133) and Vue runs watcher jobs in registration order. -/
lemma flush_both (F : Payload → List Binding → OptVal) (p : Payload) (o : OptVal) (s : St)
    (hu : s.unmounted = false) :
    flushCycle F (some p) (some o) s = setOpt o (setOpt (F p s.captured) s) := by
  unfold flushCycle
  simp [hu, setOpt_unmounted]

/-- Folding the last-applied option over a block that applies one option
value to a list of instances yields that value whenever the tracked
instance occurs in the list. -/
lemma lastOpt_foldl_block (c : ChartId) (o : OptVal) (l : List Binding) (acc : Option OptVal) :
    (l.map fun b => Event.applyOptions b.chart o).foldl (lastOptStep c) acc
      = if l.any (fun b => b.chart == c) then some o else acc := by
  induction l generalizing acc with
  | nil => rfl
  | cons b t ih =>
    simp only [List.map_cons, List.foldl_cons, List.any_cons]
    rw [ih]
    by_cases hbc : (b.chart == c) = true
    · by_cases ht : t.any (fun b => b.chart == c) = true <;>
        simp [lastOptStep, hbc, ht]
    · simp only [Bool.not_eq_true] at hbc
      by_cases ht : t.any (fun b => b.chart == c) = true <;>
        simp [lastOptStep, hbc, ht]

/-- C4 (confirmed): within one settling cycle in which both the payload
source and the options source change, the transform-derived options go
through `setOption` first and the directly-supplied options second, so for
every instance live at the end of the cycle the LAST option value applied
to it during the cycle is the directly-supplied one. -/
theorem C4_last_applied_wins (F : Payload → List Binding → OptVal)
    (p : Payload) (o : OptVal) (s : St) (hu : s.unmounted = false) :
    ∀ b ∈ (flushCycle F (some p) (some o) s).charts,
      lastOptFor b.chart
        (((flushCycle F (some p) (some o) s).trace).drop s.trace.length) = some o := by
  intro b hb
  rw [flush_both F p o s hu] at hb ⊢
  rw [setOpt_charts, setOpt_charts, setOpt_attached, List.filter_filter] at hb
  simp only [Bool.and_self] at hb
  rw [setOpt_trace, setOpt_trace, setOpt_charts, setOpt_attached, List.filter_filter]
  simp only [Bool.and_self]
  rw [List.append_assoc, List.drop_left]
  unfold lastOptFor
  rw [List.foldl_append, lastOpt_foldl_block, lastOpt_foldl_block]
  have hany : (s.charts.filter fun b' => s.attached.contains b'.el).any
      (fun b' => b'.chart == b.chart) = true :=
    List.any_eq_true.mpr ⟨b, hb, by simp⟩
  rw [hany]
  simp

/-- Witness for `C4_last_applied_wins`: in the concrete mid-run state
`c2ws`, a cycle where the payload changes to 1 and the options source to 9
leaves 9 as the last option applied to the live instance 0. -/
theorem C4_witness :
    lastOptFor 0 (((flushCycle lenF (some 1) (some 9) c2ws).trace).drop
      c2ws.trace.length) = some 9 :=
  C4_last_applied_wins lenF 1 9 c2ws rfl ⟨1, 0⟩ (by decide)

/-! ### Claim C5: setOption purges, then applies exactly once per live instance -/

/-- `engineCallsFor` over a block that applies one option value to a list
of instances selects exactly the applications to the tracked instance. -/
lemma engineCalls_map_applyBlock (c : ChartId) (o : OptVal) (l : List Binding) :
    engineCallsFor c (l.map fun b => Event.applyOptions b.chart o)
      = (l.filter fun b => b.chart == c).map (fun b => Event.applyOptions b.chart o) := by
  induction l with
  | nil => rfl
  | cons b t ih =>
    simp only [List.map_cons, List.filter_cons]
    by_cases hbc : (b.chart == c) = true
    · simp only [engineCallsFor, List.filter_cons] at ih ⊢
      simp [hbc, ih]
    · simp only [Bool.not_eq_true] at hbc
      simp only [engineCallsFor, List.filter_cons] at ih ⊢
      simp [hbc, ih]

/-- No binding of a list survives a chart-id filter for an id that does not
occur in the list. -/
lemma filter2_chart_not_mem (c : ChartId) (q : Binding → Bool) (t : List Binding)
    (hc : c ∉ t.map Binding.chart) :
    (t.filter q).filter (fun x => x.chart == c) = [] := by
  induction t with
  | nil => rfl
  | cons h0 t ih =>
    simp only [List.map_cons, List.mem_cons] at hc
    push_neg at hc
    have hne : (h0.chart == c) = false := by
      rw [beq_eq_false_iff_ne]
      exact fun h => hc.1 h.symm
    rw [List.filter_cons]
    by_cases hq : q h0 = true
    · simp only [hq, if_true, List.filter_cons, hne]
      simpa using ih hc.2
    · simp only [Bool.not_eq_true] at hq
      simp [hq, ih hc.2]

/-- When chart ids are pairwise distinct, filtering a filtered binding list
for the chart id of a member yields the member itself if it passed the
first filter and nothing otherwise. -/
lemma filter_filter_chart (l : List Binding) (hN : (l.map Binding.chart).Nodup)
    (q : Binding → Bool) (b : Binding) (hb : b ∈ l) :
    (l.filter q).filter (fun x => x.chart == b.chart) = if q b then [b] else [] := by
  induction l with
  | nil => cases hb
  | cons h0 t ih =>
    simp only [List.map_cons, List.nodup_cons] at hN
    obtain ⟨hnm, hNt⟩ := hN
    rcases List.mem_cons.mp hb with hb0 | hbt
    · subst hb0
      rw [List.filter_cons]
      by_cases hq : q b = true
      · simp only [hq, if_true, List.filter_cons, beq_self_eq_true]
        simp [filter2_chart_not_mem b.chart q t hnm]
      · simp only [Bool.not_eq_true] at hq
        simp [hq, filter2_chart_not_mem b.chart q t hnm]
    · have hne : (h0.chart == b.chart) = false := by
        rw [beq_eq_false_iff_ne]
        intro h
        exact hnm (h ▸ List.mem_map_of_mem Binding.chart hbt)
      rw [List.filter_cons]
      by_cases hq : q h0 = true
      · simp only [hq, if_true, List.filter_cons, hne]
        simpa using ih hNt hbt
      · simp only [Bool.not_eq_true] at hq
        simp [hq, ih hNt hbt]

/-- C5 (confirmed): the factory's `setOption(options)` first filters out
every binding whose element is no longer attached, then invokes the
engine's option application exactly once per remaining binding with exactly
the given options, and makes zero engine calls for the filtered-out
bindings (chart ids are assumed pairwise distinct, as fresh `init` handles
are). -/
theorem C5_setOption (o : OptVal) (s : St) (hN : (s.charts.map Binding.chart).Nodup) :
    (setOpt o s).charts = s.charts.filter (fun b => s.attached.contains b.el) ∧
    (setOpt o s).trace = s.trace
      ++ (s.charts.filter fun b => s.attached.contains b.el).map
          (fun b => Event.applyOptions b.chart o) ∧
    (∀ b ∈ s.charts, s.attached.contains b.el = true →
        engineCallsFor b.chart (((setOpt o s).trace).drop s.trace.length)
          = [Event.applyOptions b.chart o]) ∧
    (∀ b ∈ s.charts, s.attached.contains b.el = false →
        engineCallsFor b.chart (((setOpt o s).trace).drop s.trace.length) = []) := by
  refine ⟨rfl, rfl, ?_, ?_⟩
  · intro b hb hlive
    rw [setOpt_trace, List.drop_left, engineCalls_map_applyBlock,
      filter_filter_chart s.charts hN _ b hb, hlive]
    rfl
  · intro b hb hstale
    rw [setOpt_trace, List.drop_left, engineCalls_map_applyBlock,
      filter_filter_chart s.charts hN _ b hb, hstale]
    rfl

/-- A scope with two bindings of which the first became stale (element 1
left the tree). -/
def c5ws : St :=
  { attached := [2], charts := [⟨1, 0⟩, ⟨2, 1⟩], captured := [], aliased := false,
    pending := [], nextChart := 2, observed := [1, 2], resizeMap := [(2, 1), (1, 0)],
    initList := [], unmounted := false, trace := [] }

/-- Witness for `C5_setOption`: applying options 9 in `c5ws` keeps only the
binding of element 2, calls the engine exactly once on its instance with 9,
and never touches the stale instance 0. -/
theorem C5_witness :
    (setOpt 9 c5ws).charts = c5ws.charts.filter (fun b => c5ws.attached.contains b.el) ∧
    engineCallsFor 1 (((setOpt 9 c5ws).trace).drop c5ws.trace.length)
      = [Event.applyOptions 1 9] ∧
    engineCallsFor 0 (((setOpt 9 c5ws).trace).drop c5ws.trace.length) = [] :=
  ⟨(C5_setOption 9 c5ws (by decide)).1,
   (C5_setOption 9 c5ws (by decide)).2.2.1 ⟨2, 1⟩ (by decide) (by decide),
   (C5_setOption 9 c5ws (by decide)).2.2.2 ⟨1, 0⟩ (by decide) (by decide)⟩

/-! ### Claim C6: the deferred attach protocol and its order -/

/-- C6 (confirmed): attaching a non-null element with no existing binding
defers work by enqueueing the element; when the deferred step settles it
performs, in this order: purge stale bindings, create one engine instance
from the element, begin resize observation of the element, apply the
baseline options to the new instance, and invoke every registered init
callback with the pair (instance, element) — visible both in the state
components and in the appended trace
`create, observe, applyOptions baseline, initCb*`. -/
theorem C6_deferred_attach (B : OptVal) (s : St) :
    (∀ e, (s.charts.any fun b => b.el == e) = false →
      attachCb (some e) s = { s with pending := s.pending ++ [e] }) ∧
    (∀ e rest, s.pending = e :: rest →
      (settle B s).pending = rest ∧
      (settle B s).charts = (s.charts.filter fun b => s.attached.contains b.el)
        ++ [⟨e, s.nextChart⟩] ∧
      (settle B s).observed = s.observed ++ [e] ∧
      (settle B s).trace = s.trace
        ++ [Event.create e s.nextChart, Event.observe e,
            Event.applyOptions s.nextChart B]
        ++ s.initList.map (fun fn => Event.initCb fn s.nextChart e)) := by
  constructor
  · intro e he
    unfold attachCb
    simp [he]
  · intro e rest hp
    obtain ⟨att, ch, cap, al, pend, nc, obs, rm, il, um, tr⟩ := s
    simp only at hp
    subst hp
    exact ⟨rfl, rfl, rfl, rfl⟩

/-- A scope with one live binding, one pending deferred attach (element 3)
and one registered init callback (id 4). -/
def c6ws : St :=
  { attached := [3, 1], charts := [⟨1, 0⟩], captured := [], aliased := false,
    pending := [3], nextChart := 1, observed := [1], resizeMap := [(1, 0)],
    initList := [4], unmounted := false, trace := [] }

/-- Witness for `C6_deferred_attach`: attaching fresh element 5 enqueues
it, and settling the pending attach of element 3 performs the five steps,
appending `create 3 1, observe 3, applyOptions 1 7, initCb 4 1 3`. -/
theorem C6_witness :
    attachCb (some 5) c6ws = { c6ws with pending := c6ws.pending ++ [5] } ∧
    (settle 7 c6ws).pending = [] ∧
    (settle 7 c6ws).charts = (c6ws.charts.filter fun b => c6ws.attached.contains b.el)
      ++ [⟨3, c6ws.nextChart⟩] ∧
    (settle 7 c6ws).observed = c6ws.observed ++ [3] ∧
    (settle 7 c6ws).trace = c6ws.trace
      ++ [Event.create 3 c6ws.nextChart, Event.observe 3,
          Event.applyOptions c6ws.nextChart 7]
      ++ c6ws.initList.map (fun fn => Event.initCb fn c6ws.nextChart 3) :=
  ⟨(C6_deferred_attach 7 c6ws).1 5 (by decide),
   ((C6_deferred_attach 7 c6ws).2 3 [] rfl).1,
   ((C6_deferred_attach 7 c6ws).2 3 [] rfl).2.1,
   ((C6_deferred_attach 7 c6ws).2 3 [] rfl).2.2.1,
   ((C6_deferred_attach 7 c6ws).2 3 [] rfl).2.2.2⟩

/-! ### Claim C7: post-teardown registration of handles -/

/-- The handle bookkeeping of one `useCharts` scope: `AbortSignals` (an
array of AbortControllers, canceled by `signal.abort()`) and `Watchs` (an
array of watch-stop handles, canceled by calling them), plus whether the
`onUnmounted` hook has run.  Each handle is represented by its canceled
flag. -/
structure LcState where
  tornDown : Bool
  cancelables : List Bool
  subs : List Bool
deriving DecidableEq, Repr

/-- Lifecycle events: registering a cancellation handle (what `createChart`
does with a fresh AbortController, line 66), registering a subscription
handle (what `createChartEl` does with a watch-stop handle, lines 133 and
136), and teardown.  The source has NO guard on registration: both pushes
run unconditionally, whether or not the scope was torn down, and there is
no error path.  Vue invokes the `onUnmounted` hook at most once per scope,
so teardown fires only from a live scope. -/
inductive LcAct where
  | regCancelable
  | regSub
  | teardown
deriving DecidableEq, Repr

/-- One lifecycle step. -/
def lcStep : LcAct → LcState → LcState
  | .regCancelable, s => { s with cancelables := s.cancelables ++ [false] }
  | .regSub, s => { s with subs := s.subs ++ [false] }
  | .teardown, s =>
      if s.tornDown then s
      else { tornDown := true,
             cancelables := s.cancelables.map fun _ => true,
             subs := s.subs.map fun _ => true }

/-- Run a sequence of lifecycle events. -/
def lcRun (acts : List LcAct) (s : LcState) : LcState :=
  acts.foldl (fun s a => lcStep a s) s

/-- The scope as `useCharts` returns it. -/
def lcInit : LcState := { tornDown := false, cancelables := [], subs := [] }

/-- C7 counterexample.  Registering a cancellation handle after teardown
neither fails (the code has no error path, hence no
`LifecycleClosedError`) nor is a no-op: the state changes, the handle is
stored uncanceled, and even a renewed teardown event leaves it uncanceled —
so a handle IS left registered after teardown without being canceled,
refuting the claim's final clause. -/
theorem C7_counterexample :
    lcRun [.teardown, .regCancelable] lcInit
      = { tornDown := true, cancelables := [false], subs := [] } ∧
    lcRun [.teardown, .regCancelable] lcInit ≠ lcRun [.teardown] lcInit ∧
    lcRun [.teardown, .regCancelable, .teardown] lcInit
      = { tornDown := true, cancelables := [false], subs := [] } := by
  decide

/-- Helper: from a torn-down state, no lifecycle event ever cancels an
already-registered uncanceled cancelable handle, and the scope stays torn
down. -/
lemma lcRun_keeps_uncanceled (acts : List LcAct) (s : LcState)
    (ht : s.tornDown = true) (k : Nat) (hk : s.cancelables[k]? = some false) :
    (lcRun acts s).tornDown = true ∧ (lcRun acts s).cancelables[k]? = some false := by
  induction acts generalizing s with
  | nil => exact ⟨ht, hk⟩
  | cons a rest ih =>
    have hstep : (lcStep a s).tornDown = true ∧ (lcStep a s).cancelables[k]? = some false := by
      cases a with
      | regCancelable =>
        refine ⟨ht, ?_⟩
        show (s.cancelables ++ [false])[k]? = some false
        have hlt : k < s.cancelables.length := by
          by_contra hge
          rw [List.getElem?_eq_none (Nat.le_of_not_lt hge)] at hk
          cases hk
        rw [List.getElem?_append, if_pos hlt]
        exact hk
      | regSub => exact ⟨ht, hk⟩
      | teardown =>
        have hts : lcStep .teardown s = s := by simp [lcStep, ht]
        rw [hts]
        exact ⟨ht, hk⟩
    exact ih (lcStep a s) hstep.1 hstep.2

/-- C7 (amended): after scope teardown, registering a new cancellation or
subscription handle SUCCEEDS unconditionally — it is neither a
`LifecycleClosedError` failure nor a no-op — and because the teardown hook
never fires again, the late handle remains registered and is never
canceled, whatever lifecycle events follow. -/
theorem C7_amended (s : LcState) (acts : List LcAct) (ht : s.tornDown = true) :
    (lcStep .regCancelable s).cancelables.length = s.cancelables.length + 1 ∧
    (lcRun acts (lcStep .regCancelable s)).tornDown = true ∧
    (lcRun acts (lcStep .regCancelable s)).cancelables[s.cancelables.length]?
      = some false := by
  refine ⟨by simp [lcStep], ?_, ?_⟩
  · exact (lcRun_keeps_uncanceled acts (lcStep .regCancelable s) ht
      s.cancelables.length (by simp [lcStep])).1
  · exact (lcRun_keeps_uncanceled acts (lcStep .regCancelable s) ht
      s.cancelables.length (by simp [lcStep])).2

/-- Witness for `C7_amended`: a torn-down scope with one canceled handle;
a late registration followed by further registrations and a renewed
teardown leaves the late handle present and uncanceled. -/
theorem C7_witness :
    (lcStep .regCancelable
        { tornDown := true, cancelables := [true], subs := [true] }).cancelables.length
      = 2 ∧
    (lcRun [.regSub, .teardown, .regCancelable]
        (lcStep .regCancelable
          { tornDown := true, cancelables := [true], subs := [true] })).tornDown = true ∧
    (lcRun [.regSub, .teardown, .regCancelable]
        (lcStep .regCancelable
          { tornDown := true, cancelables := [true], subs := [true] })).cancelables[1]?
      = some false :=
  C7_amended { tornDown := true, cancelables := [true], subs := [true] }
    [.regSub, .teardown, .regCancelable] rfl

/-! ### Claim C8: deep payload changes trigger recomputation -/

/-- A payload source as typed in the source (`MaybeRefOrGetter`, line 127):
a non-reactive plain value, a Vue ref, a reactive object, or a getter
function.  Reactive cells are identified by numbers; a getter carries the
cells its body would read (and hence track) when invoked. -/
inductive Src where
  | plainV (v : Nat)
  | refC (cell : Nat)
  | reactiveO (cell : Nat)
  | getterF (deps : List Nat)
deriving DecidableEq, Repr

/-- The reactive cells on which the VALUE of the source depends, i.e. the
dependencies of `toValue(source)`: a ref or reactive object depends on its
cell, a getter on the cells its body reads, a plain value on nothing.  A
"deep change to the payload source" is a write to one of these cells. -/
def valueDeps : Src → List Nat
  | .plainV _ => []
  | .refC c => [c]
  | .reactiveO c => [c]
  | .getterF ds => ds

/-- The dependencies actually tracked by the watcher the source creates at
line 133: `watch(() => data, cb, { deep: true })`.  Vue evaluates the
watch getter — which returns the source OBJECT `data` itself, not
`toValue(data)` — and deep-traverses the result: traversing a ref or a
reactive object tracks its cell, but traverse skips functions, so a getter
source contributes NO dependencies, and a plain value is not reactive. -/
def trackedDeps : Src → List Nat
  | .plainV _ => []
  | .refC c => [c]
  | .reactiveO c => [c]
  | .getterF _ => []

/-- Whether a write to cell `c` makes the line-133 watcher fire (and hence
recompute `transform` and reapply via `setOption`). -/
def watcherFires (src : Src) (c : Nat) : Bool :=
  (trackedDeps src).contains c

/-- C8 (code bug): for a payload source supplied as a getter reading cell 0
— a form the source's own `MaybeRefOrGetter` type and its use of `toValue`
explicitly support — a deep change to the payload (a write to cell 0, a
value dependency) does NOT make the watcher fire, so `transform` is never
recomputed and nothing is reapplied; ref and reactive-object sources do
fire.  The slip is watching `() => data` instead of the source itself (or
`() => toValue(data)`). -/
theorem C8_getter_source_never_fires :
    watcherFires (Src.getterF [0]) 0 = false ∧
    (valueDeps (Src.getterF [0])).contains 0 = true ∧
    watcherFires (Src.refC 0) 0 = true ∧
    watcherFires (Src.reactiveO 0) 0 = true ∧
    watcherFires (Src.plainV 0) 0 = false := by
  decide

/-! ### Claim C9: the binder's charts list tracks the live binding list -/

/-- The run in which element 5 attaches, its deferred step settles, and a
payload change then flushes through the binder, with the transform
reporting how many bindings it was given (`lenF`). -/
def c9s : St :=
  runActs 7 lenF [.domAttach 5, .attach (some 5), .settle, .flush (some 1) none] init0

/-- C9 (code bug): the `charts` list the Reactive Binder captures is the
array object at creation time, NOT the factory's current list.  The
settling step first runs `removeInvalidChart`, whose `filter` REASSIGNS the
inner `charts` variable to a fresh array, and only then pushes the new
binding — so the captured array stays empty forever.  Concretely, after one
attach settles, the live list holds the binding of element 5, the captured
list is still empty, and the payload flush hands the transform the
captured snapshot: with `lenF` (the binding count) as transform, the engine
receives option value 0, although the live list has length 1 — had the
claim held, the applied value would have been 1. -/
theorem C9_captured_list_is_stale :
    c9s.charts = [⟨5, 0⟩] ∧
    c9s.captured = [] ∧
    c9s.captured ≠ c9s.charts ∧
    lenF 1 c9s.charts = 1 ∧
    c9s.trace.getLast? = some (Event.applyOptions 0 0) := by
  decide

/-! ### Claim C10: the unregister function returned by onInit -/

/-- `Array.prototype.indexOf`: the index of the first occurrence, or -1
when the value is absent (line 99 uses it on `initList`). -/
def jsIndexOf (x : Nat) : List Nat → Int
  | [] => -1
  | y :: t =>
      if y == x then 0
      else if jsIndexOf x t < 0 then -1 else jsIndexOf x t + 1

/-- The actual start index of `Array.prototype.splice(i, ...)`: a negative
`i` counts from the end (clamped at 0), a non-negative `i` is clamped at
the length. -/
def jsSpliceStart (i : Int) (len : Nat) : Nat :=
  if i < 0 then ((len : Int) + i).toNat else min i.toNat len

/-- `l.splice(i, 1)`: remove one element at the actual start index. -/
def jsSpliceRemoveOne (l : List Nat) (i : Int) : List Nat :=
  l.take (jsSpliceStart i l.length) ++ l.drop (jsSpliceStart i l.length + 1)

/-- The unregister function `onInit` returns (lines 98-100):
`initList.splice(initList.indexOf(fn), 1)` applied to the current init
list. -/
def unregisterInit (fn : Nat) (l : List Nat) : List Nat :=
  jsSpliceRemoveOne l (jsIndexOf fn l)

/-- C10 counterexample.  With callbacks 0 and 1 registered, the unregister
function of callback 0 removes it; invoking the same unregister function a
SECOND time — callback 0 is no longer registered, `indexOf` yields -1 and
`splice(-1, 1)` removes the LAST element — removes callback 1, changing the
set of remaining registered callbacks from `[1]` to `[]` and refuting the
claim that the second invocation leaves it unchanged. -/
theorem C10_counterexample :
    unregisterInit 0 [0, 1] = [1] ∧ unregisterInit 0 [1] = [] := by
  decide

lemma jsIndexOf_of_not_mem (fn : Nat) (l : List Nat) (h : fn ∉ l) :
    jsIndexOf fn l = -1 := by
  induction l with
  | nil => rfl
  | cons y t ih =>
    simp only [List.mem_cons] at h
    push_neg at h
    have hy : (y == fn) = false := by
      rw [beq_eq_false_iff_ne]
      exact fun hy => h.1 hy.symm
    simp [jsIndexOf, hy, ih h.2]

lemma jsIndexOf_bounds (fn : Nat) (l : List Nat) (h : fn ∈ l) :
    0 ≤ jsIndexOf fn l ∧ jsIndexOf fn l < l.length := by
  induction l with
  | nil => cases h
  | cons y t ih =>
    by_cases hy : (y == fn) = true
    · simp [jsIndexOf, hy]
    · have hmemt : fn ∈ t := by
        rcases List.mem_cons.mp h with h1 | h2
        · exact absurd (by rw [h1] : (y == fn) = (y == y)) (by simp [hy])
        · exact h2
      obtain ⟨h1, h2⟩ := ih hmemt
      rw [show jsIndexOf fn (y :: t) =
          (if jsIndexOf fn t < 0 then -1 else jsIndexOf fn t + 1) from by
        simp [jsIndexOf, hy]]
      rw [if_neg (by omega)]
      simp only [List.length_cons]
      constructor
      · omega
      · push_cast
        omega

/-- When the callback is still registered, the unregister call removes
exactly its first occurrence. -/
lemma unregister_of_mem (fn : Nat) (l : List Nat) (h : fn ∈ l) :
    unregisterInit fn l = l.erase fn := by
  induction l with
  | nil => cases h
  | cons y t ih =>
    by_cases hy : (y == fn) = true
    · have hjs : jsIndexOf fn (y :: t) = 0 := by simp [jsIndexOf, hy]
      unfold unregisterInit jsSpliceRemoveOne
      rw [hjs]
      have hst : jsSpliceStart 0 (y :: t).length = 0 := by
        simp [jsSpliceStart]
      rw [hst]
      simp [List.erase_cons, hy]
    · have hmemt : fn ∈ t := by
        rcases List.mem_cons.mp h with h1 | h2
        · exact absurd (by rw [h1] : (y == fn) = (y == y)) (by simp [hy])
        · exact h2
      obtain ⟨hge, hlt⟩ := jsIndexOf_bounds fn t hmemt
      have hjs : jsIndexOf fn (y :: t) = jsIndexOf fn t + 1 := by
        rw [show jsIndexOf fn (y :: t) =
            (if jsIndexOf fn t < 0 then -1 else jsIndexOf fn t + 1) from by
          simp [jsIndexOf, hy]]
        rw [if_neg (by omega)]
      have htn : (jsIndexOf fn t).toNat ≤ t.length := by omega
      have hst1 : jsSpliceStart (jsIndexOf fn t + 1) (y :: t).length
          = (jsIndexOf fn t).toNat + 1 := by
        unfold jsSpliceStart
        rw [if_neg (by omega)]
        simp only [List.length_cons]
        rw [show (jsIndexOf fn t + 1).toNat = (jsIndexOf fn t).toNat + 1 from by omega]
        omega
      have hst2 : jsSpliceStart (jsIndexOf fn t) t.length = (jsIndexOf fn t).toNat := by
        unfold jsSpliceStart
        rw [if_neg (by omega)]
        omega
      have hErase : (y :: t).erase fn = y :: t.erase fn := by
        simp [List.erase_cons, hy]
      rw [hErase, ← ih hmemt]
      unfold unregisterInit jsSpliceRemoveOne
      rw [hjs, hst1, hst2]
      simp only [List.take_succ_cons, List.drop_succ_cons, List.cons_append]

/-- When the callback is no longer registered, the unregister call removes
the LAST registered callback (a no-op only on an empty list). -/
lemma unregister_of_not_mem (fn : Nat) (l : List Nat) (h : fn ∉ l) :
    unregisterInit fn l = l.dropLast := by
  have hjs : jsIndexOf fn l = -1 := jsIndexOf_of_not_mem fn l h
  unfold unregisterInit jsSpliceRemoveOne
  rw [hjs]
  have hst : jsSpliceStart (-1) l.length = l.length - 1 := by
    unfold jsSpliceStart
    rw [if_pos (by omega)]
    omega
  rw [hst]
  cases l with
  | nil => rfl
  | cons y t =>
    simp only [List.length_cons, Nat.add_sub_cancel]
    rw [List.dropLast_eq_take]
    simp only [List.length_cons, Nat.add_sub_cancel]
    have : List.drop (t.length + 1) (y :: t) = [] := by
      rw [List.drop_succ_cons]
      exact List.drop_length t
    rw [this, List.append_nil]

/-- C10 (amended): the unregister function returned by `onInit` removes
exactly the first occurrence of the callback it registered while that
callback is still present; invoked again — or whenever the callback is not
registered — it instead removes the most recently registered callback
(`splice(-1, 1)`), leaving the set unchanged only when no callbacks
remain. -/
theorem C10_amended (fn : Nat) (l : List Nat) :
    (fn ∈ l → unregisterInit fn l = l.erase fn) ∧
    (fn ∉ l → unregisterInit fn l = l.dropLast) :=
  ⟨unregister_of_mem fn l, unregister_of_not_mem fn l⟩

/-- Witness for `C10_amended`: unregistering the registered callback 1 from
`[1, 2]` erases it; unregistering the absent callback 0 drops the last
callback. -/
theorem C10_witness :
    unregisterInit 1 [1, 2] = ([1, 2] : List Nat).erase 1 ∧
    unregisterInit 0 [1, 2] = ([1, 2] : List Nat).dropLast :=
  ⟨(C10_amended 1 [1, 2]).1 (by decide), (C10_amended 0 [1, 2]).2 (by decide)⟩
